import Mathlib

/-!
# soratun: `aws-lambda-extension/example/index.js`

A shallow embedding of the example Lambda handler

    exports.handler = async (event) => new Promise(async (resolve, reject) => {
      const req = http.request({ host: "localhost", port: 8080, path: "/", method: "POST" },
        (res) => {
          let buffer = "";
          res.on("data", (chunk) => (buffer += chunk));
          res.on("end", () => resolve({ statusCode: 200, body: JSON.parse(buffer) }));
        });
      req.on("error", (e) => reject({ statusCode: 500, body: e.message }));
      req.write(JSON.stringify(event));
      req.end();
    });

The handler is event driven.  Its synchronous part (`handler`) issues the request and
registers the listeners; afterwards the transport emits events and each emission runs one
listener (`deliver`).  The state that the listeners share is the promise, the variable
`buffer`, and the exceptions that escaped a listener.

The three built-ins the handler calls, `JSON.stringify`, `JSON.parse` and the conversion
of a `Buffer` chunk to a string in `buffer += chunk`, are not code of the repository.
They are the fields of `Platform`; theorems quantified over `Platform` hold whatever
these functions are.  `node` is an executable model of them, used to evaluate the handler
on concrete inputs.
-/

namespace Soratun

/-! ## Data model -/

/-- A JavaScript string: the sequence of its UTF-16 code units. -/
structure JsString where
  units : List Nat
deriving DecidableEq, Repr

/-- The UTF-16 code units of a code point. -/
def utf16 (c : Nat) : List Nat :=
  if c < 0x10000 then [c]
  else [0xD800 + (c - 0x10000) / 0x400, 0xDC00 + (c - 0x10000) % 0x400]

/-- The code units of a list of code points. -/
def utf16s : List Nat → List Nat
  | [] => []
  | c :: cs => utf16 c ++ utf16s cs

/-- The JavaScript string written by a string literal. -/
def JsString.ofString (s : String) : JsString :=
  { units := utf16s (s.data.map Char.toNat) }

instance : Coe String JsString := ⟨JsString.ofString⟩

instance : Append JsString := ⟨fun a b => { units := a.units ++ b.units }⟩

/-- The concatenation of strings, first to last. -/
def JsString.join (l : List JsString) : JsString :=
  l.foldl (fun a b => a ++ b) { units := [] }

/-- A Number value: a double.  `finite s m e` is `(-1)^s * m * 2^e`; the values that
`round` gives have `m` odd, or `m = 0` and `e = 0` for the two zeros. -/
inductive Number where
  | finite (negative : Bool) (mantissa : Nat) (exponent : Int)
  | infinite (negative : Bool)
  | nan
deriving DecidableEq, Repr

namespace Number

/-- The number of binary digits of `n`; `fuel` at least that number. -/
def bitLength : Nat → Nat → Nat
  | 0, _ => 0
  | fuel + 1, n => if n = 0 then 0 else bitLength fuel (n / 2) + 1

/-- Takes the factors of two out of the mantissa. -/
def reduce : Nat → Nat → Int → Nat × Int
  | 0, m, e => (m, e)
  | fuel + 1, m, e => if m ≠ 0 ∧ m % 2 = 0 then reduce fuel (m / 2) (e + 1) else (m, e)

/-- The number `finite negative m e`.  The matches make a reduction evaluate the mantissa
and the exponent once, before the number is used. -/
def settle (negative : Bool) (m : Nat) (e : Int) : Number :=
  match m, e with
  | 0, _ => .finite negative 0 e
  | m + 1, .ofNat 0 => .finite negative (m + 1) 0
  | m + 1, .ofNat (k + 1) => .finite negative (m + 1) (.ofNat (k + 1))
  | m + 1, .negSucc 0 => .finite negative (m + 1) (-1)
  | m + 1, .negSucc (k + 1) => .finite negative (m + 1) (.negSucc (k + 1))

/-- The double nearest to the rational `n / d` (`d` positive), ties to the even mantissa:
53 bits of mantissa, exponent of the last mantissa bit from -1074 to 971, infinity beyond. -/
def round (negative : Bool) (n d : Nat) : Number :=
  if n = 0 then .finite negative 0 0
  else
    let e0 : Int := (bitLength n n : Int) - (bitLength d d : Int) - 53
    let q0 := if 0 ≤ e0 then n / (d * 2 ^ e0.toNat) else n * 2 ^ (-e0).toNat / d
    let e1 := if 2 ^ 53 ≤ q0 then e0 + 1 else e0
    let e := if e1 < -1074 then -1074 else e1
    if 971 < e then .infinite negative
    else
      let num := if 0 ≤ e then n else n * 2 ^ (-e).toNat
      let den := if 0 ≤ e then d * 2 ^ e.toNat else d
      let q := num / den
      let r := num % den
      let q1 := if den < 2 * r ∨ (2 * r = den ∧ q % 2 = 1) then q + 1 else q
      if q1 = 0 then .finite negative 0 0
      else if e = 971 ∧ q1 = 2 ^ 53 then .infinite negative
      else
        let p := reduce 64 q1 e
        settle negative p.1 p.2

/-- The value `digits * 10^exponent` of a decimal literal, rounded.  A value of `10^401`
or more is beyond every double, and a value below `10^-400` is nearer to zero than to any
other double. -/
def ofDecimal (negative : Bool) (digits : Nat) (exponent : Int) : Number :=
  if digits = 0 then .finite negative 0 0
  else if 400 < exponent then .infinite negative
  else if exponent + ((Nat.toDigits 10 digits).length : Int) < -400 then .finite negative 0 0
  else if 0 ≤ exponent then round negative (digits * 10 ^ exponent.toNat) 1
  else round negative digits (10 ^ (-exponent).toNat)

/-- A numeric literal denotes the double nearest to it. -/
instance (n : Nat) : OfNat Number n := ⟨round false n 1⟩

/-- The least `j`, counted from the one given, with `d ≤ n * 10^j`. -/
def leadingZeros (n d : Nat) : Nat → Nat → Nat
  | 0, j => j
  | fuel + 1, j => if d ≤ n * 10 ^ j then j else leadingZeros n d fuel (j + 1)

/-- The position of the decimal point of the positive rational `n / d`: the integer `p`
with `10^(p-1) ≤ n / d < 10^p`. -/
def pointPosition (n d : Nat) : Int :=
  if d ≤ n then ((Nat.toDigits 10 (n / d)).length : Int)
  else 1 - (leadingZeros n d 400 1 : Int)

/-- Drops the zeros at the end of a decimal significand. -/
def dropZeros : Nat → Nat → Int → Nat × Int
  | 0, s, p => (s, p)
  | fuel + 1, s, p => if s ≠ 0 ∧ s % 10 = 0 then dropZeros fuel (s / 10) (p + 1) else (s, p)

/-- The decimal `s * 10^p` with `k` digits nearest to `n / d`, when it denotes the
double `x`. -/
def candidate (x : Number) (n d : Nat) (pos : Int) (k : Nat) : Option (Nat × Int) :=
  let p : Int := pos - k
  let num := if p ≤ 0 then n * 10 ^ (-p).toNat else n
  let den := if p ≤ 0 then d else d * 10 ^ p.toNat
  let lo := num / den
  let r := num % den
  let okLo := decide (ofDecimal false lo p = x)
  let okHi := decide (ofDecimal false (lo + 1) p = x)
  let preferHi := decide (den < 2 * r ∨ (2 * r = den ∧ lo % 2 = 1))
  if okLo && okHi then some (if preferHi then lo + 1 else lo, p)
  else if okLo then some (lo, p)
  else if okHi then some (lo + 1, p)
  else none

/-- The shortest decimal that denotes `x`: tries 1, 2, ... digits. -/
def shortest (x : Number) (n d : Nat) (pos : Int) : Nat → Nat → Nat × Int
  | 0, _ => (0, 0)
  | fuel + 1, k =>
    match candidate x n d pos k with
    | some (s, p) => dropZeros 400 s p
    | none => shortest x n d pos fuel (k + 1)

/-- The characters of an exponent: sign and decimal digits. -/
def exponentText (e : Int) : List Char :=
  if 0 ≤ e then '+' :: Nat.toDigits 10 e.toNat else '-' :: Nat.toDigits 10 (-e).toNat

/-- The operation `Number::toString` on the digits of the significand `s` and the
position `n` of the decimal point. -/
def layout (digits : List Char) (n : Int) : List Char :=
  let k : Int := digits.length
  if k ≤ n ∧ n ≤ 21 then digits ++ List.replicate (n - k).toNat '0'
  else if 0 < n ∧ n ≤ 21 then digits.take n.toNat ++ '.' :: digits.drop n.toNat
  else if -6 < n ∧ n ≤ 0 then '0' :: '.' :: (List.replicate (-n).toNat '0' ++ digits)
  else
    match digits with
    | [c] => c :: 'e' :: exponentText (n - 1)
    | c :: cs => c :: '.' :: (cs ++ 'e' :: exponentText (n - 1))
    | [] => []

/-- The text of the positive double `m * 2^e`, `m` odd: the shortest decimal that
denotes it, laid out. -/
def positiveText (m : Nat) (e : Int) : List Char :=
  let n := if 0 ≤ e then m * 2 ^ e.toNat else m
  let d := if 0 ≤ e then 1 else 2 ^ (-e).toNat
  let sp := shortest (.finite false m e) n d (pointPosition n d) 17 1
  let digits := Nat.toDigits 10 sp.1
  layout digits (digits.length + sp.2)

/-- The text of a finite Number, as `Number::toString` gives it; `none` for the
infinities and NaN.  The mantissa and the exponent are brought to the form of `round`
first. -/
def toText : Number → Option (List Char)
  | .finite negative m e =>
    match round false (if 0 ≤ e then m * 2 ^ e.toNat else m)
        (if 0 ≤ e then 1 else 2 ^ (-e).toNat) with
    | .finite _ m1 e1 =>
      if m1 = 0 then some ['0']
      else if negative then some ('-' :: positiveText m1 e1)
      else some (positiveText m1 e1)
    | _ => none
  | _ => none

end Number

/-- Structured data: objects, arrays, strings, numbers, booleans and null.  Values of
this type stand for the JavaScript values the handler receives, parses and settles with.
The members of an object are its properties in the order of their creation. -/
inductive Json where
  | null
  | bool (b : Bool)
  | num (n : Number)
  | str (s : JsString)
  | arr (items : List Json)
  | obj (members : List (JsString × Json))

/-- The octets of a `Buffer`. -/
abbrev Bytes := List Nat

/-- The built-ins the handler calls. -/
structure Platform where
  /-- The text `JSON.stringify(event)`. -/
  stringify : Json → JsString
  /-- The value `JSON.parse(text)`, or the name of the exception it throws. -/
  parse : JsString → Except String Json
  /-- The text `chunk.toString()` that `buffer += chunk` appends for a `Buffer` chunk. -/
  toString : Bytes → JsString

/-- The options object passed to `http.request`. -/
structure RequestOptions where
  host : String
  port : Nat
  path : String
  method : String
deriving DecidableEq, Repr

/-- Outbound calls the handler makes on the `http` module and on the request `req`. -/
inductive Call where
  /-- The call `http.request(options, callback)`. -/
  | httpRequest (options : RequestOptions)
  /-- The call `req.on(name, listener)`. -/
  | reqOn (name : String)
  /-- The call `req.write(chunk)`. -/
  | reqWrite (chunk : JsString)
  /-- The call `req.end()`. -/
  | reqEnd
deriving DecidableEq, Repr

/-- The error object `e` handed to the `'error'` listener of the request. -/
structure TransportError where
  message : JsString
  code : JsString
deriving DecidableEq, Repr

/-- The state of the promise created by `new Promise(...)`.  The `async` arrow function
that wraps it returns a promise that adopts this state. -/
inductive PromiseState where
  | pending
  | fulfilled (value : Json)
  | rejected (reason : Json)

/-- Events the transport emits after the synchronous part of the handler has run. -/
inductive Emission where
  /-- Event `'response'` on `req`: the callback given to `http.request` is called with
  `res`, which carries the upstream status code and headers. -/
  | response (statusCode : Nat) (headers : List (String × String))
  /-- Event `'data'` on `res`, with a `Buffer` chunk. -/
  | data (chunk : Bytes)
  /-- Event `'end'` on `res`. -/
  | resEnd
  /-- Event `'error'` on `req`. -/
  | error (e : TransportError)

/-- What the listeners share. -/
structure State where
  /-- The promise returned to the caller. -/
  promise : PromiseState
  /-- The variable `buffer`; `none` until the response callback has declared it. -/
  buffer : Option JsString
  /-- The names of the exceptions thrown out of a listener, in order.  They reach the
  event loop, not the promise. -/
  uncaught : List String
  /-- Outbound calls made so far, in order. -/
  calls : List Call

/-- What a caller that awaits the handler observes. -/
inductive Observation where
  /-- The `await` expression evaluates to the value. -/
  | returns (value : Json)
  /-- The `await` expression throws the reason. -/
  | throws (reason : Json)
  /-- The `await` expression never completes. -/
  | waits

/-! ## The handler -/

/-- The object literal `{ statusCode: code, body: body }`. -/
def result (code : Number) (body : Json) : Json :=
  .obj [("statusCode", .num code), ("body", body)]

/-- The function `resolve` of the promise: settles a pending promise, otherwise nothing. -/
def resolve (s : State) (value : Json) : State :=
  match s.promise with
  | .pending => { s with promise := .fulfilled value }
  | _ => s

/-- The function `reject` of the promise: settles a pending promise, otherwise nothing. -/
def reject (s : State) (reason : Json) : State :=
  match s.promise with
  | .pending => { s with promise := .rejected reason }
  | _ => s

/-- The synchronous part of `exports.handler`: `http.request`, `req.on("error", ...)`,
`req.write(JSON.stringify(event))`, `req.end()`.  The promise is pending and `buffer`
does not exist yet. -/
def handler (P : Platform) (event : Json) : State :=
  { promise := .pending
    buffer := none
    uncaught := []
    calls := [.httpRequest { host := "localhost", port := 8080, path := "/", method := "POST" },
              .reqOn "error",
              .reqWrite (P.stringify event),
              .reqEnd] }

/-- The response callback `(res) => { let buffer = ""; res.on("data", ...); res.on("end", ...) }`.
`http.request` registers it for one call only. -/
def onResponse (s : State) : State :=
  match s.buffer with
  | none => { s with buffer := some "" }
  | some _ => s

/-- The listener `(chunk) => (buffer += chunk)`.  It exists once the response callback
has run. -/
def onData (P : Platform) (s : State) (chunk : Bytes) : State :=
  match s.buffer with
  | some b => { s with buffer := some (b ++ P.toString chunk) }
  | none => s

/-- The listener `() => resolve({ statusCode: 200, body: JSON.parse(buffer) })`.  The
argument is evaluated first; when `JSON.parse` throws, `resolve` is not called and the
exception leaves the listener. -/
def onEnd (P : Platform) (s : State) : State :=
  match s.buffer with
  | none => s
  | some b =>
    match P.parse b with
    | .ok v => resolve s (result 200 v)
    | .error name => { s with uncaught := s.uncaught ++ [name] }

/-- The listener `(e) => reject({ statusCode: 500, body: e.message })`. -/
def onError (s : State) (e : TransportError) : State :=
  reject s (result 500 (.str e.message))

/-- One emission runs one listener. -/
def deliver (P : Platform) (s : State) : Emission → State
  | .response _ _ => onResponse s
  | .data chunk => onData P s chunk
  | .resEnd => onEnd P s
  | .error e => onError s e

/-- The state after the handler was invoked with `event` and the transport emitted
`emissions` in this order. -/
def run (P : Platform) (event : Json) (emissions : List Emission) : State :=
  emissions.foldl (deliver P) (handler P event)

/-- The observation of a caller awaiting a promise in the given state. -/
def await : PromiseState → Observation
  | .pending => .waits
  | .fulfilled v => .returns v
  | .rejected r => .throws r

/-- An exchange that completes: the response arrives, its chunks are delivered in order,
the response ends. -/
def exchange (statusCode : Nat) (headers : List (String × String)) (chunks : List Bytes) :
    List Emission :=
  .response statusCode headers :: (chunks.map .data ++ [.resEnd])

/-- The text accumulated from the chunks: each chunk converted on its own, appended in
delivery order. -/
def accumulated (P : Platform) (chunks : List Bytes) : JsString :=
  chunks.foldl (fun b chunk => b ++ P.toString chunk) ""

/-- Number of `http.request` calls among the outbound calls. -/
def requestsIssued (s : State) : Nat :=
  (s.calls.filter fun c => match c with | .httpRequest _ => true | _ => false).length

/-- The names of the own properties of an object, in order; `none` for other values. -/
def Json.keys : Json → Option (List JsString)
  | .obj ms => some (ms.map Prod.fst)
  | _ => none

/-- Property lookup `value[name]` on own properties. -/
def Json.get (name : JsString) : Json → Option Json
  | .obj ms => (ms.find? fun m => m.1 == name).map Prod.snd
  | _ => none

/-- Whether the promise has left the pending state. -/
def PromiseState.settled : PromiseState → Bool
  | .pending => false
  | _ => true

/-- Number of deliveries in the sequence at which the promise changes from pending to
settled. -/
def settlements (P : Platform) (s : State) : List Emission → Nat
  | [] => 0
  | e :: es =>
    (if !s.promise.settled && (deliver P s e).promise.settled then 1 else 0)
      + settlements P (deliver P s e) es

/-! ## An executable model of the built-ins

`JSON.stringify`, `JSON.parse` (ECMA-262, section "The JSON Object") and
`Buffer.prototype.toString` with the default encoding `utf8`.  Texts are lists of UTF-16
code units.
-/

namespace JSON

/-- The code unit of a character of the Basic Latin block. -/
abbrev u (c : Char) : Nat := c.toNat

/-- Lower-case hexadecimal digit. -/
def hexDigit (n : Nat) : Nat :=
  if n < 10 then 48 + n else 87 + n

/-- The escape `\uXXXX` of a code unit, as `UnicodeEscape` writes it. -/
def unicodeEscape (c : Nat) : List Nat :=
  [u '\\', u 'u', hexDigit (c / 4096 % 16), hexDigit (c / 256 % 16), hexDigit (c / 16 % 16),
    hexDigit (c % 16)]

/-- The text `QuoteJSONString` produces for a code unit that is not a surrogate. -/
def quoteUnit (c : Nat) : List Nat :=
  if c = u '"' then [u '\\', u '"']
  else if c = u '\\' then [u '\\', u '\\']
  else if c = 0x08 then [u '\\', u 'b']
  else if c = 0x0C then [u '\\', u 'f']
  else if c = 0x0A then [u '\\', u 'n']
  else if c = 0x0D then [u '\\', u 'r']
  else if c = 0x09 then [u '\\', u 't']
  else if c < 0x20 then unicodeEscape c
  else [c]

/-- A leading surrogate. -/
def isHigh (c : Nat) : Bool := 0xD800 ≤ c && c < 0xDC00

/-- A trailing surrogate. -/
def isLow (c : Nat) : Bool := 0xDC00 ≤ c && c < 0xE000

/-- The quoted code units followed by the closing quotation mark.  A surrogate pair is
copied; a surrogate without its partner is escaped.  `hi` is a leading surrogate just
read, waiting for its partner. -/
def quoteUnits (hi : Option Nat) : List Nat → List Nat
  | [] =>
    match hi with
    | some h => unicodeEscape h ++ [u '"']
    | none => [u '"']
  | c :: rest =>
    match hi with
    | some h =>
      if isLow c then h :: c :: quoteUnits none rest
      else if isHigh c then unicodeEscape h ++ quoteUnits (some c) rest
      else unicodeEscape h ++ (quoteUnit c ++ quoteUnits none rest)
    | none =>
      if isHigh c then quoteUnits (some c) rest
      else if isLow c then unicodeEscape c ++ quoteUnits none rest
      else quoteUnit c ++ quoteUnits none rest

/-- The abstract operation `QuoteJSONString`. -/
def quote (s : JsString) : List Nat := u '"' :: quoteUnits none s.units

/-- The text of a number: `Number::toString` for a finite number, `null` otherwise. -/
def printNumber (n : Number) : List Nat :=
  match n.toText with
  | some t => t.map Char.toNat
  | none => [u 'n', u 'u', u 'l', u 'l']

/-- An array index: the decimal text, without leading zero, of an integer below
`2^32 - 1`. -/
def arrayIndex (k : JsString) : Option Nat :=
  match k.units with
  | [] => none
  | c :: cs =>
    if (c :: cs).all (fun d => 48 ≤ d && d ≤ 57) && (c ≠ 48 || cs.isEmpty) then
      let n := (c :: cs).foldl (fun a d => a * 10 + (d - 48)) 0
      if n < 4294967295 then some n else none
    else none

/-- Places a new property whose name is the array index `i`: array indices come first,
in ascending order. -/
def insertIndex (i : Nat) (k : JsString) (v : Json) :
    List (JsString × Json) → List (JsString × Json)
  | [] => [(k, v)]
  | m :: ms =>
    match arrayIndex m.1 with
    | some j => if j < i then m :: insertIndex i k v ms else (k, v) :: m :: ms
    | none => (k, v) :: m :: ms

/-- The operation `CreateDataProperty` on the properties in enumeration order: a name
that is present keeps its place and takes the new value; a new array index goes among
the array indices; any other new name goes to the end. -/
def setProperty (k : JsString) (v : Json) (o : List (JsString × Json)) :
    List (JsString × Json) :=
  if o.any (fun m => m.1 = k) then o.map (fun m => if m.1 = k then (m.1, v) else m)
  else
    match arrayIndex k with
    | some i => insertIndex i k v o
    | none => o ++ [(k, v)]

/-- The properties of the object whose members were created in the order given, in
enumeration order. -/
def buildObject (ms : List (JsString × Json)) : List (JsString × Json) :=
  ms.foldl (fun o m => setProperty m.1 m.2 o) []

mutual
/-- The text of a value, without white space (no `space` argument is passed). -/
def print : Json → List Nat
  | .null => [u 'n', u 'u', u 'l', u 'l']
  | .bool true => [u 't', u 'r', u 'u', u 'e']
  | .bool false => [u 'f', u 'a', u 'l', u 's', u 'e']
  | .num n => printNumber n
  | .str s => quote s
  | .arr [] => [u '[', u ']']
  | .arr (x :: xs) => u '[' :: (print x ++ printItems xs)
  | .obj [] => [u '\x7b', u '\x7d']
  | .obj ((k, x) :: ms) => u '\x7b' :: (quote k ++ u ':' :: (print x ++ printMembers ms))
/-- The remaining elements of an array and the closing bracket. -/
def printItems : List Json → List Nat
  | [] => [u ']']
  | x :: xs => u ',' :: (print x ++ printItems xs)
/-- The remaining properties of an object and the closing brace. -/
def printMembers : List (JsString × Json) → List Nat
  | [] => [u '\x7d']
  | (k, x) :: ms => u ',' :: (quote k ++ u ':' :: (print x ++ printMembers ms))
end

mutual
/-- The value with the properties of every object in enumeration order. -/
def enumerate : Json → Json
  | .null => .null
  | .bool b => .bool b
  | .num n => .num n
  | .str s => .str s
  | .arr xs => .arr (enumerateItems xs)
  | .obj ms => .obj (buildObject (enumerateMembers ms))
/-- The elements of an array, each enumerated. -/
def enumerateItems : List Json → List Json
  | [] => []
  | x :: xs => enumerate x :: enumerateItems xs
/-- The members of an object, each value enumerated. -/
def enumerateMembers : List (JsString × Json) → List (JsString × Json)
  | [] => []
  | (k, x) :: ms => (k, enumerate x) :: enumerateMembers ms
end

/-- The built-in `JSON.stringify(value)`. -/
def stringify (v : Json) : JsString := { units := print (enumerate v) }

/-- JSON white space: space, tab, line feed, carriage return. -/
def isWs (c : Nat) : Bool := c = 0x20 || c = 0x09 || c = 0x0A || c = 0x0D

/-- Drops leading white space. -/
def skipWs : List Nat → List Nat
  | [] => []
  | c :: cs => if isWs c then skipWs cs else c :: cs

/-- The value of a hexadecimal digit of either case. -/
def hexVal (c : Nat) : Option Nat :=
  if u '0' ≤ c ∧ c ≤ u '9' then some (c - 48)
  else if u 'a' ≤ c ∧ c ≤ u 'f' then some (c - 87)
  else if u 'A' ≤ c ∧ c ≤ u 'F' then some (c - 55)
  else none

/-- The code unit written by the four hexadecimal digits of a `\u` escape. -/
def hex4 (a b c d : Nat) : Option Nat :=
  match hexVal a, hexVal b, hexVal c, hexVal d with
  | some a, some b, some c, some d => some (((a * 16 + b) * 16 + c) * 16 + d)
  | _, _, _, _ => none

/-- The code unit a single-character escape stands for. -/
def escapeUnit (c : Nat) : Option Nat :=
  if c = u '"' then some (u '"')
  else if c = u '\\' then some (u '\\')
  else if c = u '/' then some (u '/')
  else if c = u 'b' then some 0x08
  else if c = u 'f' then some 0x0C
  else if c = u 'n' then some 0x0A
  else if c = u 'r' then some 0x0D
  else if c = u 't' then some 0x09
  else none

/-- Puts a code unit in front of the string being read. -/
def push (c : Nat) : Option (List Nat × List Nat) → Option (List Nat × List Nat)
  | some (s, rest) => some (c :: s, rest)
  | none => none

/-- Reads the code units of a string literal after its opening quotation mark, up to and
including the closing one. -/
def parseChars : List Nat → Option (List Nat × List Nat)
  | [] => none
  | c :: rest =>
    if c = u '"' then some ([], rest)
    else if c = u '\\' then
      match rest with
      | [] => none
      | e :: rest1 =>
        if e = u 'u' then
          match rest1 with
          | a :: b :: c :: d :: rest2 =>
            match hex4 a b c d with
            | none => none
            | some x => push x (parseChars rest2)
          | _ => none
        else
          match escapeUnit e with
          | some x => push x (parseChars rest1)
          | none => none
    else if c < 0x20 then none
    else push c (parseChars rest)

/-- Reads decimal digits, most significant first: the number they write continuing from
`acc`, how many there were added to `count`, and the rest of the text. -/
def takeDigits (acc count : Nat) : List Nat → Nat × Nat × List Nat
  | [] => (acc, count, [])
  | c :: cs =>
    if u '0' ≤ c ∧ c ≤ u '9' then takeDigits (acc * 10 + (c - 48)) (count + 1) cs
    else (acc, count, c :: cs)

/-- The exponent part of a number literal, if there is one: `e` or `E`, an optional
sign, at least one digit. -/
def parseExponent : List Nat → Option (Int × List Nat)
  | [] => some (0, [])
  | c :: cs =>
    if c = u 'e' ∨ c = u 'E' then
      match cs with
      | [] => none
      | s :: ds =>
        if s = u '-' then
          match takeDigits 0 0 ds with
          | (_, 0, _) => none
          | (n, _, rest) => some (-(n : Int), rest)
        else
          match takeDigits 0 0 (if s = u '+' then ds else s :: ds) with
          | (_, 0, _) => none
          | (n, _, rest) => some ((n : Int), rest)
    else some (0, c :: cs)

/-- The fraction part of a number literal, if there is one, continuing the digits
`acc`: a point and at least one digit. -/
def parseFraction (acc : Nat) : List Nat → Option (Nat × Nat × List Nat)
  | [] => some (acc, 0, [])
  | c :: cs =>
    if c = u '.' then
      match takeDigits acc 0 cs with
      | (_, 0, _) => none
      | r => some r
    else some (acc, 0, c :: cs)

/-- The integer part of a number literal: `0`, or a non-zero digit followed by digits. -/
def parseInteger : List Nat → Option (Nat × List Nat)
  | [] => none
  | c :: cs =>
    if c = u '0' then some (0, cs)
    else if u '1' ≤ c ∧ c ≤ u '9' then
      let r := takeDigits (c - 48) 1 cs
      some (r.1, r.2.2)
    else none

/-- A number literal after its optional minus sign; its value is rounded to a double. -/
def parseUnsigned (negative : Bool) (input : List Nat) : Option (Number × List Nat) :=
  match parseInteger input with
  | none => none
  | some (i, rest) =>
    match parseFraction i rest with
    | none => none
    | some (digits, places, rest1) =>
      match parseExponent rest1 with
      | none => none
      | some (e, rest2) => some (Number.ofDecimal negative digits (e - places), rest2)

/-- A number literal. -/
def parseNumber : List Nat → Option (Number × List Nat)
  | [] => none
  | c :: cs => if c = u '-' then parseUnsigned true cs else parseUnsigned false (c :: cs)

/-- The rest of one of the literals `null`, `true`, `false`. -/
def expect (word : List Nat) (v : Json) (input : List Nat) : Option (Json × List Nat) :=
  match word, input with
  | [], rest => some (v, rest)
  | w :: ws, c :: cs => if w = c then expect ws v cs else none
  | _ :: _, [] => none

/-- A property name followed by a colon. -/
def parseKey (input : List Nat) : Option (JsString × List Nat) :=
  match skipWs input with
  | c :: cs =>
    if c = u '"' then
      match parseChars cs with
      | some (k, rest) =>
        match skipWs rest with
        | c2 :: rest2 => if c2 = u ':' then some ({ units := k }, rest2) else none
        | [] => none
      | none => none
    else none
  | [] => none

mutual
/-- Reads one value with the white space around it.  Each nested value and each
element costs one unit of `fuel`; the length of the input is always enough. -/
def parseValue : Nat → List Nat → Option (Json × List Nat)
  | 0, _ => none
  | fuel + 1, input =>
    match skipWs input with
    | [] => none
    | c :: cs =>
      if c = u '[' then
        match skipWs cs with
        | [] => none
        | d :: ds =>
          if d = u ']' then some (.arr [], skipWs ds)
          else (parseItems fuel cs).map fun r => (.arr r.1, skipWs r.2)
      else if c = u '\x7b' then
        match skipWs cs with
        | [] => none
        | d :: ds =>
          if d = u '\x7d' then some (.obj [], skipWs ds)
          else (parseMembers fuel cs).map fun r => (.obj (buildObject r.1), skipWs r.2)
      else if c = u '"' then
        (parseChars cs).map fun r => (.str { units := r.1 }, skipWs r.2)
      else if c = u 'n' then
        (expect [u 'u', u 'l', u 'l'] .null cs).map fun r => (r.1, skipWs r.2)
      else if c = u 't' then
        (expect [u 'r', u 'u', u 'e'] (.bool true) cs).map fun r => (r.1, skipWs r.2)
      else if c = u 'f' then
        (expect [u 'a', u 'l', u 's', u 'e'] (.bool false) cs).map fun r => (r.1, skipWs r.2)
      else (parseNumber (c :: cs)).map fun r => (.num r.1, skipWs r.2)
/-- Reads the elements of a non-empty array and the closing bracket. -/
def parseItems : Nat → List Nat → Option (List Json × List Nat)
  | 0, _ => none
  | fuel + 1, input =>
    match parseValue fuel input with
    | none => none
    | some (_, []) => none
    | some (v, c :: rest) =>
      if c = u ',' then (parseItems fuel rest).map fun r => (v :: r.1, r.2)
      else if c = u ']' then some ([v], rest)
      else none
/-- Reads the members of a non-empty object and the closing brace. -/
def parseMembers : Nat → List Nat → Option (List (JsString × Json) × List Nat)
  | 0, _ => none
  | fuel + 1, input =>
    match parseKey input with
    | none => none
    | some (k, afterColon) =>
      match parseValue fuel afterColon with
      | none => none
      | some (_, []) => none
      | some (v, c :: rest) =>
        if c = u ',' then (parseMembers fuel rest).map fun r => ((k, v) :: r.1, r.2)
        else if c = u '\x7d' then some ([(k, v)], rest)
        else none
end

/-- The built-in `JSON.parse(text)`: the whole text is one value, or a `SyntaxError` is
thrown. -/
def parse (text : JsString) : Except String Json :=
  match parseValue (text.units.length + 1) text.units with
  | some (v, []) => .ok v
  | _ => .error "SyntaxError"

end JSON

namespace Buffer

/-- An open UTF-8 sequence: continuation bytes still needed, the code point so far, and
the range the next byte must lie in. -/
structure Pending where
  needed : Nat
  codePoint : Nat
  lower : Nat
  upper : Nat

/-- A byte met while no sequence is open: a code point of its own, the start of a
sequence, or an invalid byte, which gives U+FFFD. -/
def leadByte (b : Nat) : Sum Nat Pending :=
  if b < 0x80 then .inl b
  else if 0xC2 ≤ b ∧ b ≤ 0xDF then .inr ⟨1, b % 32, 0x80, 0xBF⟩
  else if 0xE0 ≤ b ∧ b ≤ 0xEF then
    .inr ⟨2, b % 16, if b = 0xE0 then 0xA0 else 0x80, if b = 0xED then 0x9F else 0xBF⟩
  else if 0xF0 ≤ b ∧ b ≤ 0xF4 then
    .inr ⟨3, b % 8, if b = 0xF0 then 0x90 else 0x80, if b = 0xF4 then 0x8F else 0xBF⟩
  else .inl 0xFFFD

/-- UTF-8 decoding with replacement, to code points: a sequence that is cut short, by
another byte or by the end of the input, gives one U+FFFD, and the byte that cut it is
read again. -/
def decode (st : Option Pending) : List Nat → List Nat
  | [] =>
    match st with
    | none => []
    | some _ => [0xFFFD]
  | b :: bs =>
    match st with
    | some s =>
      if s.lower ≤ b ∧ b ≤ s.upper then
        if s.needed = 1 then (s.codePoint * 64 + b % 64) :: decode none bs
        else decode (some ⟨s.needed - 1, s.codePoint * 64 + b % 64, 0x80, 0xBF⟩) bs
      else
        match leadByte b with
        | .inl c => 0xFFFD :: c :: decode none bs
        | .inr s2 => 0xFFFD :: decode (some s2) bs
    | none =>
      match leadByte b with
      | .inl c => c :: decode none bs
      | .inr s2 => decode (some s2) bs

/-- The method `buf.toString()`: the whole buffer decoded as UTF-8. -/
def toString (bytes : Bytes) : JsString := { units := utf16s (decode none bytes) }

/-- The UTF-8 bytes of a code point. -/
def encodePoint (c : Nat) : List Nat :=
  if c < 0x80 then [c]
  else if c < 0x800 then [0xC0 + c / 64, 0x80 + c % 64]
  else if c < 0x10000 then [0xE0 + c / 4096, 0x80 + c / 64 % 64, 0x80 + c % 64]
  else [0xF0 + c / 262144, 0x80 + c / 4096 % 64, 0x80 + c / 64 % 64, 0x80 + c % 64]

/-- The UTF-8 bytes of a sequence of code units; a surrogate without its partner is
written as U+FFFD.  `hi` is a leading surrogate just read, waiting for its partner. -/
def encodeUnits (hi : Option Nat) : List Nat → List Nat
  | [] =>
    match hi with
    | some _ => encodePoint 0xFFFD
    | none => []
  | c :: rest =>
    match hi with
    | some h =>
      if JSON.isLow c then
        encodePoint (0x10000 + (h - 0xD800) * 0x400 + (c - 0xDC00)) ++ encodeUnits none rest
      else if JSON.isHigh c then encodePoint 0xFFFD ++ encodeUnits (some c) rest
      else encodePoint 0xFFFD ++ (encodePoint c ++ encodeUnits none rest)
    | none =>
      if JSON.isHigh c then encodeUnits (some c) rest
      else if JSON.isLow c then encodePoint 0xFFFD ++ encodeUnits none rest
      else encodePoint c ++ encodeUnits none rest

/-- The bytes `req.write(text)` sends for a string, with the default encoding `utf8`. -/
def fromString (text : JsString) : Bytes := encodeUnits none text.units

end Buffer

/-- The built-ins as Node.js provides them. -/
def node : Platform :=
  { stringify := JSON.stringify
    parse := JSON.parse
    toString := Buffer.toString }

/-! ## The model of the built-ins -/

/-- The function `settle` is the constructor `finite`. -/
theorem Number.settle_eq (negative : Bool) (m : Nat) (e : Int) :
    Number.settle negative m e = .finite negative m e := by
  unfold Number.settle
  split <;> rfl

/-! ## The handler: listeners and runs -/

/-- No listener makes an outbound call. -/
theorem deliver_calls (P : Platform) (s : State) (e : Emission) :
    (deliver P s e).calls = s.calls := by
  cases e <;> simp only [deliver, onResponse, onData, onEnd, onError, resolve, reject] <;>
    repeat (first | rfl | split)

theorem foldl_deliver_calls (P : Platform) (es : List Emission) (s : State) :
    (es.foldl (deliver P) s).calls = s.calls := by
  induction es generalizing s with
  | nil => rfl
  | cons e es ih => rw [List.foldl_cons, ih, deliver_calls]

theorem resolve_settled (s : State) (v : Json) (h : s.promise.settled = true) :
    resolve s v = s := by
  unfold resolve
  split
  · rename_i hp; rw [hp] at h; exact absurd h (by decide)
  · rfl

theorem reject_settled (s : State) (v : Json) (h : s.promise.settled = true) :
    reject s v = s := by
  unfold reject
  split
  · rename_i hp; rw [hp] at h; exact absurd h (by decide)
  · rfl

/-- A settled promise is not changed by any listener. -/
theorem deliver_settled (P : Platform) (s : State) (e : Emission)
    (h : s.promise.settled = true) : (deliver P s e).promise = s.promise := by
  cases e with
  | response c hd => simp only [deliver, onResponse]; split <;> rfl
  | data chunk => simp only [deliver, onData]; split <;> rfl
  | resEnd =>
    simp only [deliver, onEnd]
    split
    · rfl
    · split
      · rw [resolve_settled s _ h]
      · rfl
  | error e => simp only [deliver, onError, reject_settled s _ h]

theorem foldl_deliver_settled (P : Platform) (es : List Emission) (s : State)
    (h : s.promise.settled = true) : (es.foldl (deliver P) s).promise = s.promise := by
  induction es generalizing s with
  | nil => rfl
  | cons e es ih =>
    have hp := deliver_settled P s e h
    rw [List.foldl_cons, ih (deliver P s e) (by rw [hp]; exact h), hp]

/-- Only `'end'` with a text that parses and `'error'` settle a pending promise. -/
theorem deliver_settles (P : Platform) (s : State) (e : Emission) (hp : s.promise = .pending)
    (h : (deliver P s e).promise.settled = true) :
    (∃ err, e = .error err ∧
        (deliver P s e).promise = .rejected (result 500 (.str err.message))) ∨
      (e = .resEnd ∧ ∃ b v, s.buffer = some b ∧ P.parse b = .ok v ∧
        (deliver P s e).promise = .fulfilled (result 200 v)) := by
  cases e with
  | response c hd =>
    have : (deliver P s (.response c hd)).promise = s.promise := by
      simp only [deliver, onResponse]; split <;> rfl
    rw [this, hp] at h
    exact absurd h (by decide)
  | data chunk =>
    have : (deliver P s (.data chunk)).promise = s.promise := by
      simp only [deliver, onData]; split <;> rfl
    rw [this, hp] at h
    exact absurd h (by decide)
  | resEnd =>
    right
    refine ⟨rfl, ?_⟩
    cases hb : s.buffer with
    | none =>
      simp only [deliver, onEnd, hb, hp] at h
      exact absurd h (by decide)
    | some b =>
      cases hv : P.parse b with
      | error msg =>
        simp only [deliver, onEnd, hb, hv, hp] at h
        exact absurd h (by decide)
      | ok v =>
        refine ⟨b, v, rfl, hv, ?_⟩
        simp only [deliver, onEnd, hb, hv, resolve, hp]
  | error err =>
    left
    refine ⟨err, rfl, ?_⟩
    simp only [deliver, onError, reject, hp]

/-- At most one delivery settles the promise, and none does once it is settled. -/
theorem settlements_bound (P : Platform) (es : List Emission) (s : State) :
    settlements P s es ≤ 1 ∧ (s.promise.settled = true → settlements P s es = 0) := by
  induction es generalizing s with
  | nil => exact ⟨Nat.zero_le _, fun _ => rfl⟩
  | cons e es ih =>
    obtain ⟨hle, hzero⟩ := ih (deliver P s e)
    simp only [settlements]
    cases hs : s.promise.settled with
    | true =>
      have hd : (deliver P s e).promise.settled = true := by
        rw [deliver_settled P s e hs]; exact hs
      simp [hzero hd]
    | false =>
      cases hd : (deliver P s e).promise.settled with
      | true => simp [hzero hd]
      | false => simpa using hle

/-- The `'data'` listener only appends to `buffer`. -/
theorem foldl_data (P : Platform) (chunks : List Bytes) (s : State) (b : JsString)
    (h : s.buffer = some b) :
    (chunks.map Emission.data).foldl (deliver P) s =
      { s with buffer := some (chunks.foldl (fun b chunk => b ++ P.toString chunk) b) } := by
  induction chunks generalizing s b with
  | nil =>
    cases s
    simp only at h
    simp [h]
  | cons c cs ih =>
    have hstep : deliver P s (.data c) = { s with buffer := some (b ++ P.toString c) } := by
      simp only [deliver, onData, h]
    simp only [List.map_cons, List.foldl_cons, hstep]
    rw [ih _ (b ++ P.toString c) rfl]

theorem accumulated_eq_join (P : Platform) (chunks : List Bytes) :
    accumulated P chunks = JsString.join (chunks.map P.toString) := by
  simp only [accumulated, JsString.join, List.foldl_map]
  rfl

/-- After a completed exchange the `'end'` listener runs on the accumulated text. -/
theorem run_exchange (P : Platform) (event : Json) (statusCode : Nat)
    (headers : List (String × String)) (chunks : List Bytes) :
    run P event (exchange statusCode headers chunks) =
      onEnd P { handler P event with buffer := some (JsString.join (chunks.map P.toString)) } := by
  have h0 : deliver P (handler P event) (.response statusCode headers) =
      { handler P event with buffer := some "" } := rfl
  simp only [run, exchange, List.foldl_cons, List.foldl_append, List.foldl_nil, h0]
  rw [foldl_data P chunks _ "" rfl, ← accumulated_eq_join]
  rfl

/-- When the accumulated text does not parse, the promise stays pending and the
exception is left to the event loop. -/
theorem run_exchange_unparseable (P : Platform) (event : Json) (statusCode : Nat)
    (headers : List (String × String)) (chunks : List Bytes) (name : String)
    (h : P.parse (JsString.join (chunks.map P.toString)) = .error name) :
    (run P event (exchange statusCode headers chunks)).promise = .pending ∧
      (run P event (exchange statusCode headers chunks)).uncaught = [name] := by
  rw [run_exchange]
  simp only [onEnd, h]
  exact ⟨rfl, rfl⟩

/-- The settled values are the two object literals of the source. -/
theorem settled_invariant (P : Platform) (es : List Emission) (s : State)
    (hs : (∀ r, s.promise = .fulfilled r → ∃ text v, P.parse text = .ok v ∧ r = result 200 v) ∧
      (∀ r, s.promise = .rejected r → ∃ e : TransportError, r = result 500 (.str e.message))) :
    (∀ r, (es.foldl (deliver P) s).promise = .fulfilled r →
        ∃ text v, P.parse text = .ok v ∧ r = result 200 v) ∧
      (∀ r, (es.foldl (deliver P) s).promise = .rejected r →
        ∃ e : TransportError, r = result 500 (.str e.message)) := by
  induction es generalizing s with
  | nil => exact hs
  | cons e es ih =>
    apply ih
    cases hp : s.promise.settled with
    | true => rw [deliver_settled P s e hp]; exact hs
    | false =>
      have hpend : s.promise = .pending := by
        cases hq : s.promise <;> simp [hq, PromiseState.settled] at hp
        rfl
      cases e with
      | response c hd =>
        have : (deliver P s (.response c hd)).promise = s.promise := by
          simp only [deliver, onResponse]; split <;> rfl
        rw [this]; exact hs
      | data chunk =>
        have : (deliver P s (.data chunk)).promise = s.promise := by
          simp only [deliver, onData]; split <;> rfl
        rw [this]; exact hs
      | resEnd =>
        simp only [deliver, onEnd]
        split
        · exact hs
        · rename_i b hb
          split
          · rename_i v hv
            simp only [resolve, hpend]
            refine ⟨fun r hr => ⟨b, v, hv, ?_⟩, fun r hr => ?_⟩
            · injection hr with hr; exact hr.symm
            · cases hr
          · exact hs
      | error err =>
        simp only [deliver, onError, reject, hpend]
        refine ⟨fun r hr => ?_, fun r hr => ⟨err, ?_⟩⟩
        · cases hr
        · injection hr with hr; exact hr.symm

/-! ## The claims -/

/-- C1, the code at the failing input.  The response bytes `22 C3 A9 22`, delivered as
the chunks `22 C3` and `A9 22` in this order, concatenate to the valid JSON text of the
string U+00E9.  The handler converts each chunk on its own and resolves with
`{ statusCode: 200, body: "\ufffd\ufffd" }`: the body is not the value parsed from the
concatenation of the chunks.  The defect is the one of C8. -/
theorem chunk_boundary_changes_parsed_value :
    node.parse (node.toString ([0x22, 0xC3] ++ [0xA9, 0x22])) = .ok (.str "\u00e9") ∧
      (run node (.obj [("a", .num 1)]) (exchange 200 [] [[0x22, 0xC3], [0xA9, 0x22]])).promise
        = .fulfilled (.obj [("statusCode", .num 200), ("body", .str "\uFFFD\uFFFD")]) ∧
      Json.str "\uFFFD\uFFFD" ≠ .str "\u00e9" :=
  ⟨by rfl, by rfl, fun h => by injection h with h; exact absurd h (by decide)⟩

/-- C2, as stated, fails: on a transport failure the promise is not fulfilled; it is
rejected, and the caller awaiting the handler gets the rejection as a thrown value. -/
theorem handler_error_is_rejection :
    (run node (.obj [("a", .num 1)])
        [.error { message := "connect ECONNREFUSED 127.0.0.1:8080", code := "ECONNREFUSED" }]).promise
        = .rejected (.obj [("statusCode", .num 500),
            ("body", .str "connect ECONNREFUSED 127.0.0.1:8080")]) ∧
      (¬ ∃ r, (run node (.obj [("a", .num 1)])
        [.error { message := "connect ECONNREFUSED 127.0.0.1:8080", code := "ECONNREFUSED" }]).promise
        = .fulfilled r) ∧
      await (run node (.obj [("a", .num 1)])
        [.error { message := "connect ECONNREFUSED 127.0.0.1:8080", code := "ECONNREFUSED" }]).promise
        = .throws (.obj [("statusCode", .num 500),
            ("body", .str "connect ECONNREFUSED 127.0.0.1:8080")]) :=
  ⟨rfl, fun ⟨_, h⟩ => PromiseState.noConfusion h, rfl⟩

/-- C2, amended: for every event and every transport failure `e` raised on the request
while the promise is pending, the promise is rejected with
`{ statusCode: 500, body: e.message }`; a caller awaiting the handler observes this value
as a thrown fault. -/
theorem handler_rejects_on_error (P : Platform) (event : Json) (before : List Emission)
    (e : TransportError) (h : (run P event before).promise = .pending) :
    (run P event (before ++ [.error e])).promise
        = .rejected (.obj [("statusCode", .num 500), ("body", .str e.message)]) ∧
      await (run P event (before ++ [.error e])).promise
        = .throws (.obj [("statusCode", .num 500), ("body", .str e.message)]) := by
  have hp : (run P event (before ++ [.error e])).promise
      = .rejected (.obj [("statusCode", .num 500), ("body", .str e.message)]) := by
    simp only [run, List.foldl_append, List.foldl_cons, List.foldl_nil, deliver, onError,
      reject] at h ⊢
    rw [h]
    rfl
  exact ⟨hp, by rw [hp]; rfl⟩

/-- An instance: the connection is reset after the first chunk of the response. -/
theorem handler_rejects_on_error_witness :
    (run node .null [.response 200 [], .data [0x5b]]).promise = .pending ∧
      ((run node .null ([.response 200 [], .data [0x5b]]
          ++ [.error { message := "socket hang up", code := "ECONNRESET" }])).promise
          = .rejected (.obj [("statusCode", .num 500), ("body", .str "socket hang up")]) ∧
        await (run node .null ([.response 200 [], .data [0x5b]]
          ++ [.error { message := "socket hang up", code := "ECONNRESET" }])).promise
          = .throws (.obj [("statusCode", .num 500), ("body", .str "socket hang up")])) :=
  ⟨rfl, handler_rejects_on_error node .null [.response 200 [], .data [0x5b]]
    { message := "socket hang up", code := "ECONNRESET" } rfl⟩

/-- C3, the code at the failing input.  The event is the string U+00E9.  The handler
writes the text of U+00E9 in quotation marks to the request, which is sent as the bytes `22 C3 A9 22`.  The
endpoint returns these bytes verbatim, as the chunks `22 C3` and `A9 22`: the handler
resolves with `{ statusCode: 200, body: "\ufffd\ufffd" }`, a body that is not the event.
Returned in one chunk, the same bytes give the event back.  The defect is the one of
C8. -/
theorem echo_in_two_chunks_changes_event :
    (handler node (.str "\u00e9")).calls =
        [.httpRequest { host := "localhost", port := 8080, path := "/", method := "POST" },
         .reqOn "error",
         .reqWrite "\"\u00e9\"",
         .reqEnd] ∧
      Buffer.fromString "\"\u00e9\"" = [0x22, 0xC3] ++ [0xA9, 0x22] ∧
      (run node (.str "\u00e9") (exchange 200 [] [[0x22, 0xC3], [0xA9, 0x22]])).promise
        = .fulfilled (.obj [("statusCode", .num 200), ("body", .str "\uFFFD\uFFFD")]) ∧
      Json.str "\uFFFD\uFFFD" ≠ .str "\u00e9" ∧
      (run node (.str "\u00e9") (exchange 200 [] [[0x22, 0xC3, 0xA9, 0x22]])).promise
        = .fulfilled (.obj [("statusCode", .num 200), ("body", .str "\u00e9")]) :=
  ⟨by rfl, by rfl, by rfl, fun h => by injection h with h; exact absurd h (by decide), by rfl⟩

/-- The scenario of the specification: the event `{"a":1}` is written as the text
`{"a":1}`, sent as seven bytes; returned in one chunk, it settles the promise with
`{ statusCode: 200, body: {"a":1} }`. -/
theorem echo_scenario :
    (handler node (.obj [("a", .num 1)])).calls =
        [.httpRequest { host := "localhost", port := 8080, path := "/", method := "POST" },
         .reqOn "error",
         .reqWrite "\x7b\"a\":1\x7d",
         .reqEnd] ∧
      Buffer.fromString "\x7b\"a\":1\x7d" = [0x7b, 0x22, 0x61, 0x22, 0x3a, 0x31, 0x7d] ∧
      (run node (.obj [("a", .num 1)])
          (exchange 200 [] [[0x7b, 0x22, 0x61, 0x22, 0x3a, 0x31, 0x7d]])).promise
        = .fulfilled (.obj [("statusCode", .num 200), ("body", .obj [("a", .num 1)])]) :=
  ⟨by rfl, by rfl, by rfl⟩

/-- C4, the code at the failing input: the response text `<html>` is not JSON.  The
exception of `JSON.parse` leaves the `'end'` listener, the promise stays pending, and the
caller awaiting the handler gets neither a value nor a fault. -/
theorem parse_failure_leaves_promise_pending :
    (run node (.obj [("a", .num 1)])
        (exchange 200 [] [[0x3c, 0x68, 0x74, 0x6d, 0x6c, 0x3e]])).promise = .pending ∧
      await (run node (.obj [("a", .num 1)])
        (exchange 200 [] [[0x3c, 0x68, 0x74, 0x6d, 0x6c, 0x3e]])).promise = .waits ∧
      (run node (.obj [("a", .num 1)])
        (exchange 200 [] [[0x3c, 0x68, 0x74, 0x6d, 0x6c, 0x3e]])).uncaught = ["SyntaxError"] :=
  ⟨by rfl, by rfl, by rfl⟩

/-- C5: for every event, whatever the transport emits afterwards, the outbound calls of
an invocation are `http.request` with host `localhost`, port 8080, path `/` and method
`POST`, the registration of the `'error'` listener, one `req.write` of the text of the
event, and `req.end()`. -/
theorem handler_request_fixed (P : Platform) (event : Json) (emissions : List Emission) :
    (run P event emissions).calls =
      [.httpRequest { host := "localhost", port := 8080, path := "/", method := "POST" },
       .reqOn "error",
       .reqWrite (P.stringify event),
       .reqEnd] := by
  simp only [run, foldl_deliver_calls]
  rfl

/-- C6: for every event and every sequence of emissions (success, transport failure,
malformed response, in any order), the invocation has issued exactly one `http.request`. -/
theorem handler_single_request (P : Platform) (event : Json) (emissions : List Emission) :
    requestsIssued (run P event emissions) = 1 := by
  simp only [requestsIssued, run, foldl_deliver_calls]
  rfl

/-- C7, as stated, fails: the value the handler settles with has the fields `statusCode`
and `body`; it has no field named `status`. -/
theorem result_has_no_status_field :
    (run node .null (exchange 200 [] [[0x31]])).promise = .fulfilled (result 200 (.num 1)) ∧
      (result 200 (.num 1)).keys = some (["statusCode", "body"] : List JsString) ∧
      (result 200 (.num 1)).keys ≠ some (["status", "body"] : List JsString) ∧
      (result 200 (.num 1)).get "status" = none :=
  ⟨by rfl, by rfl, by decide, by rfl⟩

/-- C7, amended: every value the handler settles with is an object with exactly the two
fields `statusCode` and `body`, in this order.  A fulfilled promise carries
`statusCode` 200 and a body that `JSON.parse` returned; a rejected promise carries
`statusCode` 500 and the message string of a transport error. -/
theorem settled_value_shape (P : Platform) (event : Json) (emissions : List Emission)
    (r : Json)
    (hr : (run P event emissions).promise = .fulfilled r ∨
      (run P event emissions).promise = .rejected r) :
    r.keys = some (["statusCode", "body"] : List JsString) ∧
      (((run P event emissions).promise = .fulfilled r ∧
          ∃ text v, P.parse text = .ok v ∧ r = .obj [("statusCode", .num 200), ("body", v)]) ∨
        ((run P event emissions).promise = .rejected r ∧
          ∃ e : TransportError,
            r = .obj [("statusCode", .num 500), ("body", .str e.message)])) := by
  have hinv := settled_invariant P emissions (handler P event)
    ⟨fun r hr => PromiseState.noConfusion hr, fun r hr => PromiseState.noConfusion hr⟩
  rcases hr with hr | hr
  · obtain ⟨text, v, hv, hrv⟩ := hinv.1 r hr
    subst hrv
    exact ⟨rfl, Or.inl ⟨hr, text, v, hv, rfl⟩⟩
  · obtain ⟨e, hre⟩ := hinv.2 r hr
    subst hre
    exact ⟨rfl, Or.inr ⟨hr, e, rfl⟩⟩

/-- An instance: the value of a rejection. -/
theorem settled_value_shape_witness :
    ((run node .null [.error { message := "read ECONNRESET", code := "ECONNRESET" }]).promise
          = .fulfilled (result 500 (.str "read ECONNRESET")) ∨
        (run node .null [.error { message := "read ECONNRESET", code := "ECONNRESET" }]).promise
          = .rejected (result 500 (.str "read ECONNRESET"))) ∧
      (result 500 (.str "read ECONNRESET")).keys = some (["statusCode", "body"] : List JsString) :=
  ⟨Or.inr rfl,
    (settled_value_shape node .null
      [.error { message := "read ECONNRESET", code := "ECONNRESET" }]
      (result 500 (.str "read ECONNRESET")) (Or.inr rfl)).1⟩

/-- C8, the code at the failing input: the response bytes `22 C3 A9 22` are the JSON
text of the string U+00E9.  Delivered as the chunks `22 C3` and `A9 22`, each chunk is
decoded on its own and the handler resolves with a body of two U+FFFD; delivered in one
chunk, it resolves with the string U+00E9, which is the value of the whole byte sequence
decoded once. -/
theorem split_multibyte_chunk :
    (run node .null (exchange 200 [] [[0x22, 0xC3], [0xA9, 0x22]])).promise
        = .fulfilled (.obj [("statusCode", .num 200), ("body", .str "\uFFFD\uFFFD")]) ∧
      (run node .null (exchange 200 [] [[0x22, 0xC3, 0xA9, 0x22]])).promise
        = .fulfilled (.obj [("statusCode", .num 200), ("body", .str "\u00e9")]) ∧
      node.parse (node.toString ([0x22, 0xC3] ++ [0xA9, 0x22])) = .ok (.str "\u00e9") :=
  ⟨by rfl, by rfl, by rfl⟩

/-- C9: the status code and the headers of the upstream response do not influence the
handler.  Two completed exchanges that deliver the same chunks leave the handler in the
same state whatever their status codes and headers are; when the accumulated text parses
to `v` the promise is fulfilled with `{ statusCode: 200, body: v }`, and otherwise it
stays pending. -/
theorem upstream_status_ignored (P : Platform) (event : Json) (status1 status2 : Nat)
    (headers1 headers2 : List (String × String)) (chunks : List Bytes) :
    run P event (exchange status1 headers1 chunks)
        = run P event (exchange status2 headers2 chunks) ∧
      (run P event (exchange status1 headers1 chunks)).promise =
        (match P.parse (JsString.join (chunks.map P.toString)) with
          | .ok v => .fulfilled (.obj [("statusCode", .num 200), ("body", v)])
          | .error _ => .pending) ∧
      (run P event (exchange status2 headers2 chunks)).promise =
        (match P.parse (JsString.join (chunks.map P.toString)) with
          | .ok v => .fulfilled (.obj [("statusCode", .num 200), ("body", v)])
          | .error _ => .pending) := by
  have key : ∀ (status : Nat) (headers : List (String × String)),
      (run P event (exchange status headers chunks)).promise =
        (match P.parse (JsString.join (chunks.map P.toString)) with
          | .ok v => .fulfilled (.obj [("statusCode", .num 200), ("body", v)])
          | .error _ => .pending) := by
    intro status headers
    rw [run_exchange]
    cases hparse : P.parse (JsString.join (chunks.map P.toString)) with
    | ok v => simp only [onEnd, hparse]; rfl
    | error name => simp only [onEnd, hparse]; rfl
  exact ⟨by rw [run_exchange, run_exchange], key status1 headers1, key status2 headers2⟩

/-- C10: single-shot settlement.  For every event and every sequence of emissions:
the promise changes from pending to settled at most once; once the emissions `before`
have settled it, no later emission changes the outcome; and the outcome is that of the
first settling emission.  If `'error'` comes while the promise is pending, the promise is
rejected with `{ statusCode: 500, body: e.message }` whatever follows; if `'end'` comes
while it is pending and the text in `buffer` parses to `v`, it is fulfilled with
`{ statusCode: 200, body: v }` whatever follows; no other emission settles it. -/
theorem settles_once (P : Platform) (event : Json) (before later : List Emission) :
    settlements P (handler P event) (before ++ later) ≤ 1 ∧
      ((run P event before).promise.settled = true →
        (run P event (before ++ later)).promise = (run P event before).promise) ∧
      (∀ e : TransportError, (run P event before).promise = .pending →
        (run P event (before ++ .error e :: later)).promise
          = .rejected (.obj [("statusCode", .num 500), ("body", .str e.message)])) ∧
      (∀ (text : JsString) (v : Json), (run P event before).promise = .pending →
        (run P event before).buffer = some text → P.parse text = .ok v →
        (run P event (before ++ .resEnd :: later)).promise
          = .fulfilled (.obj [("statusCode", .num 200), ("body", v)])) ∧
      (∀ x : Emission, (run P event before).promise = .pending →
        (run P event (before ++ [x])).promise.settled = true →
        (∃ e, x = .error e) ∨
          (x = .resEnd ∧ ∃ text v, (run P event before).buffer = some text ∧
            P.parse text = .ok v)) := by
  refine ⟨(settlements_bound P (before ++ later) (handler P event)).1, ?_, ?_, ?_, ?_⟩
  · intro h
    simp only [run, List.foldl_append] at h ⊢
    exact foldl_deliver_settled P later _ h
  · intro e h
    simp only [run, List.foldl_append, List.foldl_cons] at h ⊢
    have hstep : (deliver P (List.foldl (deliver P) (handler P event) before) (.error e)).promise
        = .rejected (.obj [("statusCode", .num 500), ("body", .str e.message)]) := by
      simp only [deliver, onError, reject, h]
      rfl
    rw [foldl_deliver_settled P later _ (by rw [hstep]; rfl), hstep]
  · intro text v h hb hv
    simp only [run, List.foldl_append, List.foldl_cons] at h hb ⊢
    have hstep : (deliver P (List.foldl (deliver P) (handler P event) before) .resEnd).promise
        = .fulfilled (.obj [("statusCode", .num 200), ("body", v)]) := by
      simp only [deliver, onEnd, hb, hv, resolve, h]
      rfl
    rw [foldl_deliver_settled P later _ (by rw [hstep]; rfl), hstep]
  · intro x h hs
    simp only [run, List.foldl_append, List.foldl_cons, List.foldl_nil] at h hs ⊢
    rcases deliver_settles P _ x h hs with ⟨err, hx, _⟩ | ⟨hx, b, v, hb, hv, _⟩
    · exact Or.inl ⟨err, hx⟩
    · exact Or.inr ⟨hx, b, v, hb, hv⟩

/-- An instance: the connection fails after the first chunk; the `'end'` that follows,
with the text `1` in `buffer`, does not fulfil the promise. -/
theorem settles_once_witness :
    (run node .null [.response 200 [], .data [0x31]]).promise = .pending ∧
      (run node .null ([.response 200 [], .data [0x31]] ++
          .error { message := "socket hang up", code := "ECONNRESET" } :: [.resEnd])).promise
        = .rejected (.obj [("statusCode", .num 500), ("body", .str "socket hang up")]) :=
  ⟨by rfl, (settles_once node .null [.response 200 [], .data [0x31]] [.resEnd]).2.2.1
    { message := "socket hang up", code := "ECONNRESET" } (by rfl)⟩

end Soratun
